import Mathlib

/-!
Verification development for the Unix_Shell command interpreter
(`src/main.cpp`).  The C++ program is shallowly embedded: each C function
becomes a Lean function on explicit state, C `int` becomes `Int` (the
values involved stay far below any overflow bound), C strings become
Lean `String`/`List Char`, and the fixed-size `char* history[MAX_HISTORY]`
array becomes a `List (Option String)` of length `MAX_HISTORY`
(`none` models a slot whose pointer was never written).  Reads and the
single write of the history array performed by one loop iteration are
additionally recorded as integer indices so that bounds properties can be
stated without the embedding itself going out of range.
-/

/-- Capacity of the history array, `#define MAX_HISTORY 100` (main.cpp:25). -/
def MAX_HISTORY : Nat := 100

/-- Second phase of `string_compare` (main.cpp:251-255): compare
character by character, stopping at the end of either string.  The first
phase (length computation) is modelled directly with `List.length`. -/
def sameChars : List Char → List Char → Bool
  | a :: as, b :: bs => a == b && sameChars as bs
  | _, _ => true

/-- Embedding of `string_compare` (main.cpp:234-257): the lengths of the
two strings are compared first, then the characters one by one. -/
def string_compare (s1 s2 : String) : Bool :=
  if s1.data.length ≠ s2.data.length then false else sameChars s1.data s2.data

/-- Characters accepted by C `isspace`, skipped by `atoi`. -/
def isSpaceC (c : Char) : Bool :=
  c == ' ' || c == '\t' || c == '\n' || c == '\x0b' || c == '\x0c' || c == '\r'

/-- Digit-accumulation loop of C `atoi`: consume leading decimal digits,
stop at the first non-digit. -/
def atoiDigits : List Char → Int → Int
  | [], acc => acc
  | c :: cs, acc =>
    if c.isDigit then atoiDigits cs (acc * 10 + ((c.toNat : Int) - 48)) else acc

/-- Embedding of C `atoi` as used at main.cpp:97: skip leading
whitespace, read an optional sign, then a maximal run of decimal digits
(result `0` when no digits are present). -/
def atoi (s : List Char) : Int :=
  match s.dropWhile isSpaceC with
  | '-' :: rest => - atoiDigits rest 0
  | '+' :: rest => atoiDigits rest 0
  | rest => atoiDigits rest 0

/-- Delimiters of `strtok` in `parse_input` (main.cpp:193): space and
newline. -/
def isDelim (c : Char) : Bool := c == ' ' || c == '\n'

/-- Token splitting performed by repeated `strtok` calls: maximal runs of
non-delimiter characters, in order.  `cur` accumulates the current token
in reverse. -/
def splitToks : List Char → List Char → List String
  | [], cur => if cur.isEmpty then [] else [String.mk cur.reverse]
  | c :: cs, cur =>
    if isDelim c then
      if cur.isEmpty then splitToks cs [] else String.mk cur.reverse :: splitToks cs []
    else splitToks cs (c :: cur)

/-- The token sequence `strtok` produces for an input line. -/
def tokenize (input : String) : List String := splitToks input.data []

/-- The token-collection loop of `parse_input` (main.cpp:199-210).
`args` is the argument vector built so far (the terminating `NULL`
sentinel of the C array is modelled by the end of the list), `sw` is the
`shouldWait` flag passed by reference.  A token equal to `"&"` at any
position other than the first sets the flag to `false` and is dropped
from the vector (in the C code it is overwritten by the next token or by
the terminating `NULL`). -/
def parse_loop : List String → List String → Bool → List String × Bool
  | [], args, sw => (args, sw)
  | a :: rest, args, sw =>
    if string_compare a "&" then parse_loop rest args false
    else parse_loop rest (args ++ [a]) sw

/-- Embedding of `parse_input` (main.cpp:190-212).  Returns the argument
vector (without the `NULL` sentinel) and the final `shouldWait` flag;
`sw` is the value the flag has on entry (`main` sets it to `true` before
the call).  Note that the first token is stored without any `&` check
(main.cpp:199); only the tokens grabbed inside the `while` loop are
compared against `"&"`. -/
def parse_input (input : String) (sw : Bool) : List String × Bool :=
  match tokenize input with
  | [] => ([], sw)
  | t :: ts => parse_loop ts [t] sw

/-- Reading `history[i]` for an integer index: out-of-range or
never-written slots yield the empty string (in C this would be an invalid
or uninitialised pointer; the offending index itself is tracked
separately by the dispatcher model). -/
def histRead (arr : List (Option String)) (i : Int) : String :=
  (arr.getD i.toNat none).getD ""

/-- The printing loop of `print_history` (main.cpp:222-225): starting at
index `hc`, print `"<hc+1> <history[hc]>"` and walk down, for at most
`fuel` (= 10) iterations, stopping when the index drops below 0. -/
def ph_aux (arr : List (Option String)) : Int → Nat → List String
  | _, 0 => []
  | hc, n + 1 =>
    if hc > -1 then (toString (hc + 1) ++ " " ++ histRead arr hc) :: ph_aux arr (hc - 1) n
    else []

/-- Indices of the history array read by the `print_history` loop. -/
def ph_idxs : Int → Nat → List Int
  | _, 0 => []
  | hc, n + 1 => if hc > -1 then hc :: ph_idxs (hc - 1) n else []

/-- Embedding of `print_history` (main.cpp:218-226): the header line
followed by the loop output with 10 units of fuel. -/
def print_history (arr : List (Option String)) (hc : Int) : List String :=
  "Command history:" :: ph_aux arr hc 10

/-- The mutable state of `main` that survives from one loop iteration to
the next: the history array, the counter `history_count`, and the `args`
vector (`none` models the uninitialised array before the first
`parse_input` call; `some v` the vector left by the most recent call). -/
structure ShellState where
  arr : List (Option String)
  hc : Int
  args : Option (List String)
deriving Repr, DecidableEq

/-- State at program start (main.cpp:47-50): empty slots,
`history_count = -1`, `args` uninitialised. -/
def initState : ShellState := ⟨List.replicate MAX_HISTORY none, -1, none⟩

/-- Value of `history_count` after the append at main.cpp:133-135: reset
to `-1` when the counter has reached `MAX_HISTORY`, then pre-increment. -/
def postCount (hc : Int) : Int := (if hc ≥ 100 then -1 else hc) + 1

/-- Slot written by the append at main.cpp:135:
`(++history_count) % MAX_HISTORY`, with C truncated `%` (`Int.tmod`). -/
def appendSlot (hc : Int) : Int := (postCount hc).tmod 100

/-- The unconditional history insertion at main.cpp:133-135. -/
def histAppend (s : ShellState) (line : String) : ShellState :=
  { s with arr := s.arr.set (appendSlot s.hc).toNat (some line), hc := postCount s.hc }

/-- A sequence of history insertions, oldest first. -/
def runAppends (s : ShellState) (ls : List String) : ShellState :=
  ls.foldl histAppend s

/-- The history-store lookup the spec calls `byNumber`: the validity test
and slot read of the `!n` branch (main.cpp:101-105) for a 1-based display
number `n` (the code computes `num = n - 1` and checks
`num <= history_count && num > -1` before reading `history[num]`). -/
def byNumber (s : ShellState) (n : Int) : Option String :=
  if n - 1 ≤ s.hc ∧ n - 1 > -1 then s.arr.getD (n - 1).toNat none else none

/-- The index the `!n` branch uses (main.cpp:93-99): `0` when no
character follows the `!`, otherwise `atoi` of the rest of the line
minus one. -/
def recallNum (input : String) : Int :=
  if input.data.drop 1 ≠ [] then atoi (input.data.drop 1) - 1 else 0

/-- The recall checks at main.cpp:77-111, applied to one input line.
Returns the (possibly rewritten) line, the `need_fork` flag, the lines
printed, and the history indices read.  In the failing `!n` branch the
statement `input = NULL;` (main.cpp:109) assigns `NULL` to an array,
which is ill-formed C++ and has no effect; the line is modelled as left
unchanged, so it flows on to the parse and append steps. -/
def recallPhase (s : ShellState) (input : String) :
    String × Bool × List String × List Int :=
  if string_compare input "!!" then
    if s.hc ≠ -1 then
      (histRead s.arr s.hc, true, [histRead s.arr s.hc], [s.hc])
    else
      (input, false, ["No commands in history!"], [])
  else if input.data.head? = some '!' then
    if recallNum input ≤ s.hc ∧ recallNum input > -1 then
      (histRead s.arr (recallNum input), true,
        [histRead s.arr (recallNum input)], [recallNum input])
    else
      (input, true,
        ["There is no command numbered " ++ toString (recallNum input + 1) ++
          " in the history."], [])
  else
    (input, true, [], [])

/-- Everything one iteration of the main loop produces for a non-empty
line different from `exit`. -/
structure StepResult where
  state : ShellState
  out : List String
  spawned : Bool
  waitFlag : Bool
  readIdxs : List Int
  writeIdx : Int
  appended : String
deriving Repr, DecidableEq

/-- One iteration of the dispatcher loop (main.cpp:71-142) on a
non-empty input line that is not `exit`: recall resolution, the
`history` builtin check (which skips `parse_input` and, when the store
is non-empty, clears `need_fork`), the unconditional append of the
current line, and the fork decision.  `spawned` records whether
`execute` is invoked; `out` the lines printed by the parent. -/
def stepLine (s : ShellState) (input : String) : StepResult :=
  match recallPhase s input with
  | (line, needFork1, out1, reads1) =>
    let slot := appendSlot s.hc
    let arr2 := s.arr.set slot.toNat (some line)
    let hc2 := postCount s.hc
    if string_compare line "history" then
      if s.hc = -1 then
        { state := ⟨arr2, hc2, s.args⟩, out := out1 ++ ["No commands in history!"],
          spawned := needFork1, waitFlag := true, readIdxs := reads1,
          writeIdx := slot, appended := line }
      else
        { state := ⟨arr2, hc2, s.args⟩, out := out1 ++ print_history s.arr s.hc,
          spawned := false, waitFlag := true, readIdxs := reads1 ++ ph_idxs s.hc 10,
          writeIdx := slot, appended := line }
    else
      { state := ⟨arr2, hc2, some (parse_input line true).1⟩, out := out1,
        spawned := needFork1, waitFlag := (parse_input line true).2, readIdxs := reads1,
        writeIdx := slot, appended := line }

/-- The whole interpreter loop (main.cpp:56-143) on a list of input
lines: blank lines are skipped, `exit` stops the loop, every other line
goes through `stepLine`.  Returns the final state together with the
accumulated history-array read indices and write indices. -/
def runShell : ShellState → List String → ShellState × List Int × List Int
  | s, [] => (s, [], [])
  | s, l :: ls =>
    if l.data.length = 0 then runShell s ls
    else if string_compare l "exit" then (s, [], [])
    else
      let r := stepLine s l
      let rest := runShell r.state ls
      (rest.1, r.readIdxs ++ rest.2.1, r.writeIdx :: rest.2.2)

/-- C logical negation on `int`: `!x` is `1` when `x` is zero, `0`
otherwise. -/
def c_not (x : Int) : Int := if x = 0 then 1 else 0

/-- The child-branch condition `!execvp(cmd[0], cmd) < 0` of `execute`
(main.cpp:164), as a function of the value `execvp` returned (`-1` on
failure; a successful `execvp` never returns). -/
def exec_error_check (r : Int) : Bool := decide (c_not r < 0)

/-- What the child prints after `execvp` returns `r` (main.cpp:164-167). -/
def execute_child_output (r : Int) : List String :=
  if exec_error_check r then ["Error executing command!"] else []

/-- State after one stored command, `ls`. -/
def oneEntryState : ShellState := histAppend initState "ls"

/-- State after two stored commands, `a` then `b`. -/
def twoEntryState : ShellState := histAppend (histAppend initState "a") "b"

/-- An input session: 101 ordinary commands followed by the recall
expression `!101`. -/
def overflowSession : List String := List.replicate 101 "x" ++ ["!101"]

/-! Supporting lemmas. -/

/-- The character loop of string_compare decides list equality once the
lengths agree. -/
theorem sameChars_iff : ∀ (as bs : List Char), as.length = bs.length →
    (sameChars as bs = true ↔ as = bs)
  | [], [], _ => by simp [sameChars]
  | [], _ :: _, h => by simp at h
  | _ :: _, [], h => by simp at h
  | a :: as, b :: bs, h => by
    have h2 : as.length = bs.length := by simpa using h
    simp [sameChars, sameChars_iff as bs h2]

/-- Embedded string_compare agrees with string equality. -/
theorem string_compare_iff (s1 s2 : String) : string_compare s1 s2 = true ↔ s1 = s2 := by
  unfold string_compare
  by_cases h : s1.data.length = s2.data.length
  · simp only [h, ne_eq, not_true_eq_false, if_false, sameChars_iff _ _ h, String.ext_iff]
  · simp only [ne_eq, h, not_false_eq_true, if_true]
    constructor
    · intro hf; exact absurd hf (by simp)
    · intro hs; exact absurd (congrArg (fun s => s.data.length) hs) h

/-- Distinct strings compare as false. -/
theorem string_compare_ne (s1 s2 : String) (h : s1 ≠ s2) : string_compare s1 s2 = false := by
  rcases hb : string_compare s1 s2 with _ | _
  · rfl
  · exact absurd ((string_compare_iff s1 s2).mp hb) h

/-- Closed form of the parse_input token loop: tokens other than the
first equal to the background marker are dropped, and the wait flag is
cleared exactly when one of them occurs. -/
theorem parse_loop_spec : ∀ (ts args : List String) (sw : Bool),
    parse_loop ts args sw =
      (args ++ ts.filter (fun a => !(string_compare a "&")),
       sw && !(ts.any (fun a => string_compare a "&")))
  | [], args, sw => by simp [parse_loop]
  | a :: rest, args, sw => by
    by_cases h : string_compare a "&" = true
    · simp [parse_loop, h, parse_loop_spec rest args false]
    · simp [parse_loop, h, parse_loop_spec rest (args ++ [a]) sw]

/-- The print_history loop stops immediately below index 0. -/
theorem ph_aux_neg (arr : List (Option String)) (hc : Int) (h : hc < 0) :
    ∀ n, ph_aux arr hc n = []
  | 0 => by simp [ph_aux]
  | n + 1 => by simp [ph_aux]; omega

/-- Closed form of the print_history loop: on a non-negative counter it
prints min fuel (hc+1) lines, the k-th line carrying display number
hc+1-k and the slot text at index hc-k. -/
theorem ph_aux_spec : ∀ (fuel : Nat) (arr : List (Option String)) (hc : Int), 0 ≤ hc →
    ph_aux arr hc fuel = (List.range (min fuel (hc.toNat + 1))).map
      (fun k : Nat => toString (hc + 1 - (k : Int)) ++ " " ++ histRead arr (hc - (k : Int)))
  | 0, arr, hc, h => by simp [ph_aux]
  | fuel + 1, arr, hc, h => by
    rw [ph_aux]
    rw [if_pos (by omega)]
    by_cases h0 : hc = 0
    · subst h0
      rw [ph_aux_neg arr (0 - 1) (by norm_num)]
      have hmin : min (fuel + 1) ((0 : Int).toNat + 1) = 1 := by omega
      rw [hmin]
      rw [show List.range 1 = [0] from rfl]
      norm_num
    · have h1 : 1 ≤ hc := by omega
      rw [ph_aux_spec fuel arr (hc - 1) (by omega)]
      have htn : (hc - 1).toNat + 1 = hc.toNat := by omega
      rw [htn]
      have hmin : min (fuel + 1) (hc.toNat + 1) = min fuel hc.toNat + 1 := by omega
      rw [hmin, List.range_succ_eq_map, List.map_cons, List.map_map]
      congr 1
      · norm_num
      · apply List.map_congr_left
        intro k _
        simp only [Function.comp]
        have e1 : hc + 1 - ((Nat.succ k : Nat) : Int) = hc - 1 + 1 - (k : Int) := by
          push_cast; ring
        have e2 : hc - ((Nat.succ k : Nat) : Int) = hc - 1 - (k : Int) := by
          push_cast; ring
        rw [e1, e2]

/-- The counter value written back by an append is non-negative. -/
theorem postCount_nonneg (hc : Int) (h : -1 ≤ hc) : 0 ≤ postCount hc := by
  unfold postCount; split <;> omega

/-- The slot index of an append is non-negative. -/
theorem appendSlot_nonneg (hc : Int) (h : -1 ≤ hc) : 0 ≤ appendSlot hc := by
  unfold appendSlot
  exact Int.tmod_nonneg 100 (postCount_nonneg hc h)

/-- The slot index of an append is below the capacity. -/
theorem appendSlot_lt (hc : Int) : appendSlot hc < 100 := by
  unfold appendSlot
  exact Int.tmod_lt_of_pos (postCount hc) (by norm_num)

/-- Below the reset threshold an append just increments the counter. -/
theorem histAppend_hc (s : ShellState) (l : String) (h : s.hc < 100) :
    (histAppend s l).hc = s.hc + 1 := by
  have hng : ¬ s.hc ≥ 100 := by omega
  simp [histAppend, postCount, hng]

/-- As long as the counter stays at most 100, a sequence of appends adds
its length to the counter. -/
theorem runAppends_hc : ∀ (ls : List String) (s : ShellState),
    s.hc + ls.length ≤ 100 → (runAppends s ls).hc = s.hc + ls.length
  | [], s, _ => by simp [runAppends]
  | l :: ls, s, h => by
    have hl : (ls.length : Int) + 1 = ((l :: ls).length : Int) := by simp
    have h1 : s.hc < 100 := by rw [← hl] at h; omega
    have h2 : (histAppend s l).hc = s.hc + 1 := histAppend_hc s l h1
    have h3 : runAppends s (l :: ls) = runAppends (histAppend s l) ls := by
      simp [runAppends]
    rw [h3, runAppends_hc ls (histAppend s l) (by rw [h2]; rw [← hl] at h; omega), h2]
    rw [← hl]; ring

/-- Reading back the slot just written. -/
theorem histRead_set_self (arr : List (Option String)) (i : Int) (v : String)
    (h : i.toNat < arr.length) :
    histRead (arr.set i.toNat (some v)) i = v := by
  unfold histRead
  rw [List.getD_eq_getElem?_getD, List.getElem?_set_self (by simpa using h)]
  rfl

/-- Recall phase on a double-bang with empty history: the message is
printed, the fork flag is cleared, and the line stays as typed. -/
theorem recallPhase_bb_empty (s : ShellState) (h : s.hc = -1) :
    recallPhase s "!!" = ("!!", false, ["No commands in history!"], []) := by
  unfold recallPhase
  rw [if_pos (by decide), if_neg (by simp [h])]

/-- Recall phase on a failing numbered recall: the message is printed,
the fork flag stays set, and the line stays as typed. -/
theorem recallPhase_bangFail (s : ShellState) (input : String)
    (h1 : input.data.head? = some '!') (h2 : input ≠ "!!")
    (h3 : ¬(recallNum input ≤ s.hc ∧ recallNum input > -1)) :
    recallPhase s input =
      (input, true,
       ["There is no command numbered " ++ toString (recallNum input + 1) ++
         " in the history."], []) := by
  unfold recallPhase
  rw [if_neg, if_pos h1, if_neg h3]
  simp [string_compare_ne input "!!" h2]

/-! Claim theorems. -/

set_option maxRecDepth 40000 in
/-- C1 counterexample.  The claim says that after exactly 100 appends the
very next append resets the numbering (new entry becomes logical entry 1)
and makes byNumber 100 not-found.  In fact the 101st append leaves the
counter at 100 (logical entry 101, because the reset test
history_count >= MAX_HISTORY at main.cpp:133 fires one append too late)
and byNumber 100 still returns the 100th pre-reset entry. -/
theorem claim1_counterexample :
    (runAppends initState (List.replicate 100 "a")).hc = 99 ∧
    (histAppend (runAppends initState (List.replicate 100 "a")) "b").hc = 100 ∧
    byNumber (histAppend (runAppends initState (List.replicate 100 "a")) "b") 100 =
      some "a" := by decide

/-- C1 amended.  After exactly 101 appends (one more than the capacity;
the 101st was stored in slot 0 with counter value 100), the next append
resets the numbering: the counter becomes 0 (logical entry 1), the write
goes to slot 0, and byNumber 100 on the resulting store is not-found. -/
theorem claim1_amended_reset (ls : List String) (x : String) (h : ls.length = 101) :
    (runAppends initState ls).hc = 100 ∧
    appendSlot (runAppends initState ls).hc = 0 ∧
    (histAppend (runAppends initState ls) x).hc = 0 ∧
    byNumber (histAppend (runAppends initState ls) x) 100 = none := by
  have hhc : (runAppends initState ls).hc = 100 := by
    have hini : initState.hc = -1 := rfl
    have := runAppends_hc ls initState (by rw [hini, h]; norm_num)
    rw [this, hini, h]; norm_num
  have hpost : postCount 100 = 0 := by unfold postCount; norm_num
  refine ⟨hhc, ?_, ?_, ?_⟩
  · unfold appendSlot
    rw [hhc, hpost]
    decide
  · unfold histAppend
    rw [hhc]; exact hpost
  · unfold byNumber histAppend
    rw [hhc]
    rw [if_neg]
    simp [hpost]

set_option maxRecDepth 40000 in
/-- C1 amended, witness at a concrete 101-append history. -/
theorem claim1_amended_reset_witness :
    (List.replicate 101 "a").length = 101 ∧
    ((runAppends initState (List.replicate 101 "a")).hc = 100 ∧
     appendSlot (runAppends initState (List.replicate 101 "a")).hc = 0 ∧
     (histAppend (runAppends initState (List.replicate 101 "a")) "b").hc = 0 ∧
     byNumber (histAppend (runAppends initState (List.replicate 101 "a")) "b") 100 = none) :=
  ⟨by decide, claim1_amended_reset (List.replicate 101 "a") "b" (by decide)⟩

/-- C2.  The claim says a failing numbered recall such as !3 prints the
error message, clears needsSpawn and spawns nothing.  The code prints
the message but leaves need_fork set (no branch of main.cpp:106-110
clears it), parses the literal line into args, and invokes execute on
it: spawned is true and args holds the literal line. -/
theorem claim2_code_behavior :
    (stepLine initState "!3").out = ["There is no command numbered 3 in the history."] ∧
    (stepLine initState "!3").spawned = true ∧
    (stepLine initState "!3").state.args = some ["!3"] ∧
    histRead (stepLine initState "!3").state.arr 0 = "!3" := by decide

/-- C3 counterexample.  The claim says a double-bang on an empty store
prints the message, spawns nothing, and leaves the History Store
untouched.  The message and no-spawn parts hold, but the store is
mutated: the literal line is appended at slot 0 and the counter moves
from -1 to 0 (the append at main.cpp:135 is unconditional). -/
theorem claim3_counterexample :
    (stepLine initState "!!").out = ["No commands in history!"] ∧
    (stepLine initState "!!").spawned = false ∧
    (stepLine initState "!!").state.hc = 0 ∧
    histRead (stepLine initState "!!").state.arr 0 = "!!" := by decide

/-- C3 amended.  A double-bang on an empty store prints the message and
spawns no process, but the store is mutated: the literal line is
recorded as a fresh entry in slot 0 and the counter becomes 0. -/
theorem claim3_amended (s : ShellState) (h : s.hc = -1) :
    (stepLine s "!!").out = ["No commands in history!"] ∧
    (stepLine s "!!").spawned = false ∧
    (stepLine s "!!").state.hc = 0 ∧
    (stepLine s "!!").state.arr = s.arr.set 0 (some "!!") ∧
    (stepLine s "!!").appended = "!!" := by
  unfold stepLine
  rw [recallPhase_bb_empty s h]
  have hnh : string_compare "!!" "history" = false := by decide
  simp [hnh, h, appendSlot, postCount]

/-- C3 amended, witness at the start state. -/
theorem claim3_amended_witness :
    initState.hc = -1 ∧
    ((stepLine initState "!!").out = ["No commands in history!"] ∧
     (stepLine initState "!!").spawned = false ∧
     (stepLine initState "!!").state.hc = 0 ∧
     (stepLine initState "!!").state.arr = initState.arr.set 0 (some "!!") ∧
     (stepLine initState "!!").appended = "!!") :=
  ⟨rfl, claim3_amended initState rfl⟩

/-- C4 counterexample.  The claim says the wait flag is cleared if and
only if the final non-empty token is the background marker, and that a
non-final marker is kept in the argument vector.  In fact on the line
with tokens echo, marker, foo the final token is foo, yet the marker is
removed from the vector and the wait flag is cleared (the loop at
main.cpp:201-210 treats a marker at any non-first position this way). -/
theorem claim4_counterexample :
    parse_input "echo & foo" true = (["echo", "foo"], false) ∧
    (tokenize "echo & foo").getLast? = some "foo" := by decide

/-- C4 amended.  The tokenizer splits on spaces and newlines; every
token after the first that equals the background marker is removed from
the argument vector, and the wait flag is cleared exactly when at least
one such token occurs anywhere after the first position (a marker that
is the very first token is kept and leaves the flag set).  The two
concrete examples of the claim do hold. -/
theorem claim4_amended (input t : String) (ts : List String) (h : tokenize input = t :: ts) :
    parse_input input true =
      (t :: ts.filter (fun a => !(string_compare a "&")),
       !(ts.any (fun a => string_compare a "&"))) := by
  unfold parse_input
  rw [h]
  dsimp only
  rw [parse_loop_spec]
  simp

/-- C4 amended, witness at the two example lines of the claim. -/
theorem claim4_amended_witness :
    tokenize "cmd &" = ["cmd", "&"] ∧
    parse_input "cmd &" true = (["cmd"], false) ∧
    tokenize "echo a  b" = ["echo", "a", "b"] ∧
    parse_input "echo a  b" true = (["echo", "a", "b"], true) := by
  refine ⟨by decide, ?_, by decide, ?_⟩
  · have h := claim4_amended "cmd &" "cmd" ["&"] (by decide)
    rw [h]; decide
  · have h := claim4_amended "echo a  b" "echo" ["a", "b"] (by decide)
    rw [h]; decide

/-- C5.  The claim says the child prints the exec-failure message if and
only if execvp actually fails, and then exits.  The condition at
main.cpp:164 is (!execvp(...)) < 0, which is false for every return
value (C logical negation yields 0 or 1, never negative), so the child
prints nothing even when execvp returns -1 on failure, and the code has
no exit call in the child branch. -/
theorem claim5_code_behavior :
    ∀ r : Int, exec_error_check r = false ∧ execute_child_output r = [] := by
  intro r
  have h : exec_error_check r = false := by
    unfold exec_error_check c_not
    by_cases h : r = 0 <;> simp [h]
  exact ⟨h, by simp [execute_child_output, h]⟩

/-- C6.  The claim says the history builtin never spawns a process.
With a non-empty store that holds, but on an empty store the branch at
main.cpp:116-119 prints the message without clearing need_fork, so
execute is invoked with the args array untouched by this iteration
(still uninitialised on a first command): spawned is true and args is
none, and the literal line history is still appended to the store. -/
theorem claim6_code_behavior :
    (stepLine initState "history").out = ["No commands in history!"] ∧
    (stepLine initState "history").spawned = true ∧
    (stepLine initState "history").state.args = none ∧
    histRead (stepLine initState "history").state.arr 0 = "history" := by decide

/-- C7.  After a failed numbered recall the offending literal line is
still appended to the History Store verbatim: the error message is the
only output of the recall phase, the appended text equals the typed
line, and reading back the slot just written yields that line. -/
theorem claim7_failed_recall_recorded (s : ShellState) (input : String)
    (hlen : s.arr.length = MAX_HISTORY) (hhc : -1 ≤ s.hc)
    (h1 : input.data.head? = some '!') (h2 : input ≠ "!!")
    (h3 : ¬(recallNum input ≤ s.hc ∧ recallNum input > -1)) :
    (stepLine s input).appended = input ∧
    (stepLine s input).out =
      ["There is no command numbered " ++ toString (recallNum input + 1) ++
        " in the history."] ∧
    histRead (stepLine s input).state.arr (appendSlot s.hc) = input := by
  have hnh : input ≠ "history" := by
    intro he; rw [he] at h1; exact absurd h1 (by decide)
  unfold stepLine
  rw [recallPhase_bangFail s input h1 h2 h3]
  have hcmp : string_compare input "history" = false := string_compare_ne _ _ hnh
  simp only [hcmp, Bool.false_eq_true, if_false]
  refine ⟨trivial, trivial, ?_⟩
  apply histRead_set_self
  have := appendSlot_lt s.hc
  have := appendSlot_nonneg s.hc hhc
  rw [hlen]
  unfold MAX_HISTORY
  omega

/-- C7 witness: entering !3 with two stored commands records the literal
text of the failed recall. -/
theorem claim7_witness :
    twoEntryState.arr.length = MAX_HISTORY ∧ -1 ≤ twoEntryState.hc ∧
    "!3".data.head? = some '!' ∧ "!3" ≠ "!!" ∧
    ¬(recallNum "!3" ≤ twoEntryState.hc ∧ recallNum "!3" > -1) ∧
    ((stepLine twoEntryState "!3").appended = "!3" ∧
     (stepLine twoEntryState "!3").out =
       ["There is no command numbered " ++ toString (recallNum "!3" + 1) ++
         " in the history."] ∧
     histRead (stepLine twoEntryState "!3").state.arr (appendSlot twoEntryState.hc) = "!3") :=
  ⟨by decide, by decide, by decide, by decide, by decide,
   claim7_failed_recall_recorded twoEntryState "!3" (by decide) (by decide)
     (by decide) (by decide) (by decide)⟩

/-- C8 counterexample.  The claim says a bare bang always fails with an
invalid-index error no matter how many entries exist.  With one stored
command the code resolves it: num stays 0 because the decrement at
main.cpp:98 only runs when a character follows the bang, the validity
test 0 <= history_count passes, and the first entry is echoed, appended
again and executed. -/
theorem claim8_counterexample :
    (stepLine oneEntryState "!").out = ["ls"] ∧
    (stepLine oneEntryState "!").spawned = true ∧
    (stepLine oneEntryState "!").appended = "ls" := by decide

/-- C8 amended.  A bare bang is treated as history index 0, that is as
display number 1: with a non-empty store it resolves to entry number 1
(the echo is the first output line, the resolved text is re-appended,
and slot 0 is read), and a process is spawned for the resolved text
exactly when that text is not the history builtin (a stored literal
"history" triggers the listing instead and spawns nothing); it fails -
with the message naming number 1 - exactly when the store is empty. -/
theorem claim8_amended (s : ShellState) :
    (0 ≤ s.hc →
      (stepLine s "!").out.head? = some (histRead s.arr 0) ∧
      (stepLine s "!").appended = histRead s.arr 0 ∧
      (stepLine s "!").readIdxs.head? = some 0 ∧
      (stepLine s "!").spawned = !(string_compare (histRead s.arr 0) "history")) ∧
    (s.hc = -1 →
      (stepLine s "!").out = ["There is no command numbered 1 in the history."] ∧
      (stepLine s "!").appended = "!" ∧
      (stepLine s "!").spawned = true) := by
  constructor
  · intro h
    have hr : recallPhase s "!" =
        (histRead s.arr 0, true, [histRead s.arr 0], [0]) := by
      unfold recallPhase
      rw [if_neg, if_pos (by decide)]
      · rw [if_pos]
        · norm_num [recallNum]
        · refine ⟨?_, by norm_num [recallNum]⟩
          simpa [recallNum] using h
      · decide
    unfold stepLine
    rw [hr]
    rcases hh : string_compare (histRead s.arr 0) "history" with _ | _
    · simp only [hh, Bool.false_eq_true, if_false]
      simp [hh]
    · simp only [hh, if_true]
      by_cases he : s.hc = -1
      · omega
      · simp [he, hh]
  · intro h
    have hr : recallPhase s "!" =
        ("!", true, ["There is no command numbered 1 in the history."], []) := by
      have := recallPhase_bangFail s "!" (by decide) (by decide)
        (by simp [recallNum, h])
      simpa [recallNum] using this
    unfold stepLine
    rw [hr]
    have hcmp : string_compare "!" "history" = false := by decide
    simp [hcmp]

/-- C8 amended, witness: with one stored entry (the non-builtin text
ls) the bare bang resolves to that entry and a process is spawned; on
the empty store it fails naming number 1. -/
theorem claim8_amended_witness :
    (0 ≤ oneEntryState.hc ∧
     (stepLine oneEntryState "!").out.head? = some (histRead oneEntryState.arr 0) ∧
     (stepLine oneEntryState "!").spawned = true) ∧
    (initState.hc = -1 ∧
     (stepLine initState "!").out = ["There is no command numbered 1 in the history."]) :=
  ⟨⟨by decide, ((claim8_amended oneEntryState).1 (by decide)).1,
    ((claim8_amended oneEntryState).1 (by decide)).2.2.2⟩,
   ⟨rfl, ((claim8_amended initState).2 rfl).1⟩⟩

/-- C9.  For a store with at least one entry (counter hc at least 0,
number of live entries hc+1) the history listing is the header followed
by exactly min 10 (hc+1) lines, most recent first: the k-th line shows
display number hc+1-k (the 0-based index hc-k plus one) and the text at
index hc-k, stopping at the start of history. -/
theorem claim9_history_listing (arr : List (Option String)) (hc : Int) (h : 0 ≤ hc) :
    print_history arr hc = "Command history:" ::
      (List.range (min 10 (hc.toNat + 1))).map
        (fun k : Nat => toString (hc + 1 - (k : Int)) ++ " " ++ histRead arr (hc - (k : Int))) := by
  unfold print_history
  rw [ph_aux_spec 10 arr hc h]

/-- C9 witness at a one-entry store. -/
theorem claim9_witness :
    (0 : Int) ≤ 0 ∧
    print_history ((List.replicate 100 (none : Option String)).set 0 (some "ls")) 0 =
      ["Command history:", "1 ls"] := by
  refine ⟨le_refl 0, ?_⟩
  rw [claim9_history_listing ((List.replicate 100 (none : Option String)).set 0 (some "ls")) 0
    (le_refl 0)]
  decide

set_option maxRecDepth 100000 in
/-- C10.  The claim says every read and write of the history array stays
within slots 0 to 99.  Writes do, but reads do not: after 101 ordinary
commands the counter is 100, and the recall expression with number 101
passes the validity test (num = 100 <= history_count) and reads slot
100, one past the end of the array.  The session below performs exactly
that out-of-bounds read. -/
theorem claim10_code_behavior :
    (runShell initState overflowSession).2.1 = [(100 : Int)] ∧
    ¬((100 : Int) < (MAX_HISTORY : Int)) := by decide
